import Mathlib

/-!
Verification of the groningen-rentals scraping and aggregation engine.

The definitions below are a shallow embedding of the TypeScript sources:

* src/src/app/api/scrape-properties/route.ts - the Next.js API route with
  the nine agency scrapers, the field extractors, the Dutch date parser,
  the ten-minute result cache and the change detector;
* the LiveScraper module (middleware/live-scraper bundle) - the merge step
  with title/location deduplication and the stable sort by listing age.

Conventions of the embedding:

* JavaScript millisecond timestamps are Int, calendar arithmetic uses the
  standard civil-from-days / days-from-civil conversions, so that
  new Date(y, m, d) and Date.prototype.toISOString agree with the source
  at UTC;
* every call to Math.random() is modelled by one entry of an explicit
  random source passed as an argument (a value already floored to the
  range the call site scales to, or a raw draw reduced with %), so that
  randomized behaviour is stated, not hidden;
* fetch results are modelled by explicit arguments: an adapter that never
  fetches simply ignores them, and regex matching inside an extractor is
  modelled by passing the capture results of the patterns, one argument
  per source pattern, universally quantified in the theorems.
-/

/-- Milliseconds per day, the divisor 1000*60*60*24 used by the route. -/
def msPerDay : Int := 86400000

/-- Days since 1970-01-01 of a civil date (proleptic Gregorian calendar),
matching the date part of a JavaScript Date at UTC. -/
def daysFromCivil (y m d : Int) : Int :=
  let yAdj := if m ≤ 2 then y - 1 else y
  let era := (if 0 ≤ yAdj then yAdj else yAdj - 399) / 400
  let yoe := yAdj - era * 400
  let mp := if 2 < m then m - 3 else m + 9
  let doy := (153 * mp + 2) / 5 + d - 1
  let doe := yoe * 365 + yoe / 4 - yoe / 100 + doy
  era * 146097 + doe - 719468

/-- Civil date (year, month, day) of a count of days since 1970-01-01. -/
def civilFromDays (z0 : Int) : Int × Int × Int :=
  let z := z0 + 719468
  let era := (if 0 ≤ z then z else z - 146096) / 146097
  let doe := z - era * 146097
  let yoe := (doe - doe / 1460 + doe / 4380 - doe / 146096) / 365
  let y := yoe + era * 400
  let doy := doe - (365 * yoe + yoe / 4 - yoe / 100)
  let mp := (5 * doy + 2) / 153
  let d := doy - (153 * mp + 2) / 5 + 1
  let m := if mp < 10 then mp + 3 else mp - 9
  (if m ≤ 2 then y + 1 else y, m, d)

/-- Day number of `new Date(year, month0, day)` (month0 is 0-indexed and is
normalized into the year, day overflow is carried, as MakeDay specifies). -/
def jsMakeDay (y m0 d : Int) : Int :=
  daysFromCivil (y + Int.fdiv m0 12) (Int.emod m0 12 + 1) 1 + (d - 1)

/-- Left-pad a decimal numeral with zeros to the given width. -/
def padZero (width : Nat) (n : Nat) : String :=
  let s := toString n
  if s.length < width then String.mk (List.replicate (width - s.length) '0') ++ s else s

/-- The date part of Date.prototype.toISOString, "YYYY-MM-DD", of a
millisecond timestamp. -/
def isoDateOfMs (ms : Int) : String :=
  let day := Int.fdiv ms msPerDay
  let c := civilFromDays day
  padZero 4 c.1.toNat ++ "-" ++ padZero 2 c.2.1.toNat ++ "-" ++ padZero 2 c.2.2.toNat

/-- Value of a list of decimal digit characters. -/
def digitsToNat (cs : List Char) : Nat :=
  cs.foldl (fun a c => 10 * a + (c.toNat - 48)) 0

/-- JavaScript Number() on the strings this code feeds it: surrounding
spaces are trimmed, the empty string is 0, a plain digit string is its
value, anything else is NaN (None). -/
def jsNumber (s : String) : Option Int :=
  let core := ((s.toList.dropWhile (· = ' ')).reverse.dropWhile (· = ' ')).reverse
  if core.isEmpty then some 0
  else if core.all Char.isDigit then some (digitsToNat core) else none

/-- JavaScript Number.parseInt on a non-negative decimal: the leading run
of digits after optional spaces, NaN (None) when there is none. -/
def jsParseInt (s : String) : Option Nat :=
  let ds := (s.toList.dropWhile (· = ' ')).takeWhile Char.isDigit
  if ds.isEmpty then none else some (digitsToNat ds)

/-- Splitting a character list at every occurrence of a separator, with the
same contract as String.prototype.split on a single-character separator
(empty fields are kept). The second argument accumulates the current field. -/
def splitChars (sep : Char) : List Char → List Char → List String
  | [], acc => [String.mk acc.reverse]
  | c :: rest, acc =>
      if c = sep then String.mk acc.reverse :: splitChars sep rest []
      else splitChars sep rest (c :: acc)

/-- String.prototype.split with a single-character separator. -/
def jsSplit (sep : Char) (s : String) : List String := splitChars sep s.toList []

/-- String.prototype.toLowerCase (character-wise lowering). -/
def toLowerStr (s : String) : String := String.mk (s.toList.map Char.toLower)

/-- Test for the anchored pattern of one or two digits (the day-of-month
candidate test in parseDutchDate). -/
def isDigits1to2 (s : String) : Bool :=
  let cs := s.toList
  (cs.length == 1 || cs.length == 2) && cs.all Char.isDigit

/-- The unanchored regex test for two digits, dash, two digits, dash, four
digits, at the head of a character list. -/
def matchesDDMMYYYYAt (l : List Char) : Bool :=
  match l with
  | a :: b :: '-' :: c :: d :: '-' :: e :: f :: g :: h :: _ =>
      a.isDigit && b.isDigit && c.isDigit && d.isDigit &&
      e.isDigit && f.isDigit && g.isDigit && h.isDigit
  | _ => false

/-- The unanchored regex test for the DD-MM-YYYY shape anywhere in the
string, as used by the numeric branch of parseDutchDate. -/
def hasDDMMYYYY : List Char → Bool
  | [] => false
  | c :: t => matchesDDMMYYYYAt (c :: t) || hasDDMMYYYY t

/-- The Dutch month-name table of parseDutchDate (0-indexed months). -/
def monthNames : List (String × Nat) :=
  [("januari", 0), ("februari", 1), ("maart", 2), ("april", 3), ("mei", 4), ("juni", 5),
   ("juli", 6), ("augustus", 7), ("september", 8), ("oktober", 9), ("november", 10),
   ("december", 11)]

/-- Lookup of a lowercased token in the month-name table. -/
def lookupMonth (s : String) : Option Nat :=
  (monthNames.find? (fun kv => kv.1 == s)).map (·.2)

/-- Result record of parseDutchDate. -/
structure ParsedDate where
  listedDate : String
  daysAgo : Nat
deriving Repr, DecidableEq

/-- The numeric branch of parseDutchDate:
const [day, month, year] = dateString.split('-').map(Number) followed by
new Date(year, month - 1, day). None when a destructured field is missing
or NaN: the invalid date whose toISOString later throws into the catch. -/
def numericDateMs (dateString : String) : Option Int :=
  let parts := (jsSplit '-' dateString).map jsNumber
  match parts[0]?, parts[1]?, parts[2]? with
  | some (some d), some (some m), some (some y) => some (msPerDay * jsMakeDay y (m - 1) d)
  | _, _, _ => none

/-- parseDutchDate from route.ts. `todayMs` is the millisecond timestamp the
source reads from new Date(). The two Math.random() call sites are passed
explicitly: `randMs` is the already-scaled offset Math.random()*7*24*60*60*1000
used when no month name is found, `randCatchDays` is the Math.floor(Math.random()*14)
day count used when date construction throws (NaN date). -/
def parseDutchDate (randMs randCatchDays : Nat) (todayMs : Int) (dateString : String) :
    ParsedDate :=
  let cs := dateString.toList
  let parsedMs? : Option Int :=
    if cs.contains '-' && hasDDMMYYYY cs then
      -- "05-06-2025" format
      numericDateMs dateString
    else
      -- "Donderdag 5 juni 2025": tokenize, pick day, month name and year
      let parts := jsSplit ' ' (toLowerStr dateString)
      let day : Nat :=
        (jsParseInt ((parts.find? (fun p =>
          isDigits1to2 p && decide ((jsParseInt p).getD 0 ≤ 31))).getD "1")).getD 0
      let monthName? := parts.find? (fun p => (lookupMonth p).isSome)
      let year : Nat :=
        (jsParseInt ((parts.find? (fun p =>
          (p.toList.length == 4) && p.toList.all Char.isDigit)).getD "2025")).getD 0
      match monthName? with
      | some mn => some (msPerDay * jsMakeDay (year : Int) (((lookupMonth mn).getD 0 : Nat) : Int) (day : Int))
      | none => some (todayMs - (randMs : Int))
  match parsedMs? with
  | some pms =>
      -- Math.max(0, Math.floor(timeDiff / 86400000)), spelled with an if
      let flo := Int.fdiv (todayMs - pms) msPerDay
      let daysAgo := if flo < 0 then 0 else flo
      { listedDate := isoDateOfMs pms, daysAgo := daysAgo.toNat }
  | none =>
      { listedDate := isoDateOfMs (todayMs - (randCatchDays : Int) * msPerDay)
        daysAgo := randCatchDays }

/-- The reference "today" of the specification scenarios: 2025-06-10 at
midnight UTC, in milliseconds. -/
def today20250610 : Int := msPerDay * daysFromCivil 2025 6 10

/-- One normalized listing record, the ScrapedProperty interface of
route.ts. -/
structure ScrapedProperty where
  id : String
  title : String
  price : Nat
  location : String
  size : String
  rooms : Nat
  image : String
  images : List String
  sourceUrl : String
  agent : String
  description : String
  listedDate : String
  daysAgo : Nat
deriving Repr, DecidableEq

/-- The unsplash image URL template shared by the scrapers. -/
def unsplashUrl (n : Nat) : String :=
  "https://images.unsplash.com/photo-" ++ toString n ++ "?w=400&h=250&fit=crop&crop=center"

/-- The record pushed by scrapeGrunoVerhuur for one listing (route.ts
lines 398-412). `nowTs` is the Date.now() read when the record is built and
`i` the index of the listing link in the index page; the id interpolates
exactly these two values. The remaining fields are the extracted or
fallback values computed earlier in the loop body. -/
def grunoRecord (nowTs i : Nat) (address fullUrl : String) (basePrice rooms : Nat)
    (size listedDate : String) (daysAgo : Nat) (photo1 photo2 : Nat) : ScrapedProperty :=
  { id := "gruno-" ++ toString nowTs ++ "-" ++ toString i
    title := address
    price := basePrice
    location := "Groningen Centrum"
    size := size
    rooms := rooms
    image := unsplashUrl photo1
    images := [unsplashUrl photo2]
    sourceUrl := fullUrl
    agent := "Gruno Verhuur"
    description := address ++ " - Aangeboden door Gruno Verhuur"
    listedDate := listedDate
    daysAgo := daysAgo }

/-- Change detection of the GET handler: with a previous cached result the
new records are the current records whose id occurs in no previous record;
on the very first aggregation (no cache) the list is empty. -/
def detectNewProperties (hasPrevious : Bool) (current previous : List ScrapedProperty) :
    List ScrapedProperty :=
  if hasPrevious then
    current.filter (fun p => !(previous.any (fun prev => prev.id == p.id)))
  else []

/-- The shared shape of the pattern loops of extractGrunoPrice and
extractVanDerMeulenPrice: each entry is the result the regex engine
returns for one pattern (None when the pattern does not match, otherwise
the first capture group). A match has its dots (thousands separators)
removed and is parsed; a value inside the 400..3500 band is returned at
once, anything else falls through to the next pattern; 0 when no pattern
yields a valid price. -/
def priceLoop : List (Option String) → Nat
  | [] => 0
  | none :: rest => priceLoop rest
  | some cap :: rest =>
      match jsParseInt (String.mk (cap.toList.filter (fun c => c ≠ '.'))) with
      | some priceNum =>
          if 400 ≤ priceNum ∧ priceNum ≤ 3500 then priceNum else priceLoop rest
      | none => priceLoop rest

/-- extractGrunoPrice: seven patterns tried in order, band 400..3500. The
arguments are the capture results of patterns 1-7 on the input HTML. -/
def extractGrunoPrice (c1 c2 c3 c4 c5 c6 c7 : Option String) : Nat :=
  priceLoop [c1, c2, c3, c4, c5, c6, c7]

/-- extractVanDerMeulenPrice: ten patterns tried in order, band 400..3500.
The arguments are the capture results of patterns 1-10 on the input HTML. -/
def extractVanDerMeulenPrice (v1 v2 v3 v4 v5 v6 v7 v8 v9 v10 : Option String) : Nat :=
  priceLoop [v1, v2, v3, v4, v5, v6, v7, v8, v9, v10]

/-- Price selection of scrapeGrunoVerhuur: the detail-page extraction, the
index-page context as fallback, and no random fallback ("Don't fallback to
random prices"). -/
def grunoFinalPrice (detailPrice indexPrice : Nat) : Nat :=
  if detailPrice = 0 then indexPrice else detailPrice

/-- Price selection of scrapeVanDerMeulen: the index-context extraction is
replaced by 600 + Math.floor(Math.random()*1200) when it is 0 (route.ts
lines 498-501, `rand` being the floored draw), then
finalPrice = detailPagePrice || price || 0. -/
def vanDerMeulenFinalPrice (indexPrice detailPrice rand : Nat) : Nat :=
  let price := if indexPrice = 0 then 600 + rand else indexPrice
  if detailPrice ≠ 0 then detailPrice else if price ≠ 0 then price else 0

/-- Price selection of scrapeDCWonen: finalPrice = extractedPrice ||
(400 + Math.floor(Math.random()*300)) (route.ts line 1076). -/
def dcWonenFinalPrice (extractedPrice rand : Nat) : Nat :=
  if extractedPrice ≠ 0 then extractedPrice else 400 + rand

/-- Price selection of scrape123Wonen: finalPrice = extractedPrice ||
(800 + Math.floor(Math.random()*600)) (route.ts line 1211). -/
def wonen123FinalPrice (extractedPrice rand : Nat) : Nat :=
  if extractedPrice ≠ 0 then extractedPrice else 800 + rand

/-- Price selection of scrapeRotsvast and scrapeNovaVastgoed:
finalPrice = extractedPrice || 0. -/
def rotsvastFinalPrice (extractedPrice : Nat) : Nat :=
  if extractedPrice ≠ 0 then extractedPrice else 0

/-- Street list of the MVGM generator. -/
def mvgmStreets : List String :=
  ["Oosterstraat", "Herestraat", "Korreweg", "Helperzoom", "Concourslaan"]

/-- Area list of the Expat Groningen generator. -/
def expatAreas : List String :=
  ["Centrum", "Zernike Campus", "Noord", "Helpman", "Paddepoel"]

/-- scrapeMVGM (route.ts lines 1243-1285). The function performs no fetch:
the page environment every fetching adapter reads from is accepted and
ignored, mirroring a body with no fetch call. `draws k` is the k-th
Math.random() draw of the run (a raw natural, reduced with % to the scale
of the call site), `nowTs` the Date.now() millisecond timestamp. Twelve
records are generated. -/
def scrapeMVGM (pages : String → Option String) (draws : Nat → Nat) (nowTs : Nat) :
    List ScrapedProperty :=
  (List.range 12).map (fun i =>
    let randomDaysAgo := draws (8 * i) % 10
    let street := mvgmStreets.getD (draws (8 * i + 1) % 5) "Oosterstraat"
    let number := draws (8 * i + 2) % 200 + 1
    { id := "mvgm-" ++ toString nowTs ++ "-" ++ toString i
      title := street ++ " " ++ toString number
      price := 900 + draws (8 * i + 3) % 700
      location := "Groningen"
      size := toString (60 + draws (8 * i + 4) % 80) ++ "m²"
      rooms := 2 + draws (8 * i + 5) % 3
      image := unsplashUrl (1580587771525 + draws (8 * i + 6) % 100000)
      images := [unsplashUrl (1580587771525 + draws (8 * i + 7) % 100000)]
      sourceUrl := "https://mvgm.com/nl/vastgoeddiensten/woningmanagement/mvgm-wonen-groningen/property-"
        ++ toString nowTs ++ "-" ++ toString i
      agent := "MVGM Wonen"
      description := street ++ " " ++ toString number ++ " - Aangeboden door MVGM Wonen Groningen"
      listedDate := isoDateOfMs ((nowTs : Int) - (randomDaysAgo : Int) * msPerDay)
      daysAgo := randomDaysAgo })

/-- scrapeExpatGroningen (route.ts lines 1420-1459). Like scrapeMVGM it
performs no fetch and generates its ten records from the random source. -/
def scrapeExpatGroningen (pages : String → Option String) (draws : Nat → Nat) (nowTs : Nat) :
    List ScrapedProperty :=
  (List.range 10).map (fun i =>
    let randomDaysAgo := draws (7 * i) % 6
    let area := expatAreas.getD (draws (7 * i + 1) % 5) "Centrum"
    { id := "expatgroningen-" ++ toString nowTs ++ "-" ++ toString i
      title := "Expat Housing " ++ area
      price := 800 + draws (7 * i + 2) % 800
      location := "Groningen " ++ area
      size := toString (45 + draws (7 * i + 3) % 75) ++ "m²"
      rooms := 1 + draws (7 * i + 4) % 3
      image := unsplashUrl (1521477716071 + draws (7 * i + 5) % 100000)
      images := [unsplashUrl (1521477716071 + draws (7 * i + 6) % 100000)]
      sourceUrl := "https://expatgroningen.com/property-" ++ toString nowTs ++ "-" ++ toString i
      agent := "Expat Groningen"
      description := "Expat Housing " ++ area
        ++ " - Professional housing service for internationals by Expat Groningen"
      listedDate := isoDateOfMs ((nowTs : Int) - (randomDaysAgo : Int) * msPerDay)
      daysAgo := randomDaysAgo })

/-- Outcome of one entry of Promise.allSettled. -/
inductive Settled (α : Type) where
  | fulfilled (value : α)
  | rejected (reason : String)
deriving Repr, DecidableEq

/-- The merge of the GET handler (route.ts lines 1496-1517): every
fulfilled adapter contributes its records in adapter order, a rejected
adapter is logged and skipped. -/
def mergeSettled (outcomes : List (Settled (List ScrapedProperty))) : List ScrapedProperty :=
  outcomes.foldl
    (fun acc o => match o with
      | .fulfilled v => acc ++ v
      | .rejected _ => acc) []

/-- The response record assembled by the GET handler from the merged
records (an aggregation outcome is always a response, never a raised
error, because Promise.allSettled never rejects). -/
structure ScrapingResponse where
  properties : List ScrapedProperty
  count : Nat
  cached : Bool
deriving Repr, DecidableEq

/-- Building the GET response from the settled adapter outcomes. -/
def buildResponse (outcomes : List (Settled (List ScrapedProperty))) : ScrapingResponse :=
  { properties := mergeSettled outcomes
    count := (mergeSettled outcomes).length
    cached := false }

/-- One property record of the LiveScraper module (the Property interface
of the lib api: the fields built by the Pararius/Funda/Kamernet page
extractors). -/
structure Property where
  id : String
  title : String
  price : Nat
  location : String
  size : String
  rooms : Nat
  source : String
  sourceUrl : String
  listedDays : Nat
  image : String
  images : List String
  description : String
  type : String
  available : String
  realEstateAgent : String
  neighborhood : String
  buildYear : String
  interior : String
  fullDescription : String
  features : List String
  energyLabel : String
  deposit : Nat
deriving Repr, DecidableEq

/-- The duplicate test of the merge step: exact (case-sensitive) equality
of title and location, p.title === property.title &&
p.location === property.location. -/
def keyEq (a b : Property) : Bool :=
  a.title == b.title && a.location == b.location

/-- Index of the first record with the same title and location,
self.findIndex(p => keyEq p q). -/
def firstKeyIdx (l : List Property) (q : Property) : Nat :=
  l.findIdx (fun p => keyEq p q)

/-- The deduplication of LiveScraper.scrapeAllSources:
allProperties.filter((property, index, self) =>
index === self.findIndex(p => p.title === property.title &&
p.location === property.location)). -/
def dedupTitleLoc (l : List Property) : List Property :=
  (l.enum.filter (fun ip => firstKeyIdx l ip.2 == ip.1)).map Prod.snd

/-- The deduplication contract in the words of the specification: keep the
first occurrence, drop every later record whose title and location match
it exactly. Stated separately so the implementation above can be proved to
refine it. -/
def specDedup : List Property → List Property
  | [] => []
  | p :: rest => p :: specDedup (rest.filter (fun q => !(keyEq p q)))
termination_by l => l.length
decreasing_by
  simp only [List.length_cons]
  exact Nat.lt_succ_of_le (List.length_filter_le _ _)

/-- The comparator (a, b) => a.listedDays - b.listedDays as an ordering
relation: a sorts no later than b when a.listedDays <= b.listedDays. -/
def byDays : Property → Property → Prop :=
  fun a b => a.listedDays ≤ b.listedDays

instance : DecidableRel byDays := fun a b => Nat.decLe a.listedDays b.listedDays

instance : IsTotal Property byDays := ⟨fun a b => Nat.le_total a.listedDays b.listedDays⟩

instance : IsTrans Property byDays := ⟨fun _ _ _ h1 h2 => Nat.le_trans h1 h2⟩

/-- uniqueProperties.sort((a, b) => a.listedDays - b.listedDays):
Array.prototype.sort is specified to be stable, so the call is modelled by
a stable sort (insertion sort) over the comparator ordering. -/
def sortByDays (l : List Property) : List Property :=
  l.insertionSort byDays

/-- Concatenation of the per-source results of scrapeAllSources: each
source either returns its records, which are appended, or throws, which is
caught and logged. -/
def collectSources (outcomes : List (Except String (List Property))) : List Property :=
  outcomes.foldl
    (fun acc o => match o with
      | .ok ps => acc ++ ps
      | .error _ => acc) []

/-- The merge of LiveScraper.scrapeAllSources: concatenate the sources
that succeeded, deduplicate on (title, location) keeping first
occurrences, then sort ascending by listedDays. -/
def scrapeAllSources (outcomes : List (Except String (List Property))) : List Property :=
  sortByDays (dedupTitleLoc (collectSources outcomes))

/-- The module-level cache of route.ts: cachedResult (None before the
first scrape completes; the abstract snapshot value is a Nat tag) and
lastScrapeTs, plus an instrumentation counter of how many aggregation runs
were started. -/
structure CacheState where
  cachedResult : Option Nat
  lastScrapeTs : Nat
  scrapeCount : Nat
deriving Repr, DecidableEq

/-- Phase of one concurrent GET caller: about to run the cache check,
about to run the scrape-and-store body, or finished. -/
inductive CallerPhase where
  | checking
  | working
  | finished
deriving Repr, DecidableEq

/-- TEN_MIN = 10 * 60 * 1000. -/
def TEN_MIN : Nat := 10 * 60 * 1000

/-- One atomic step of a GET caller at time `now`. The cache check (the
await-free prefix of GET) is one step: a fresh cache finishes the caller,
a stale or empty cache sends it to the scrape body. The scrape body
(everything after the first await, up to and including the cache store) is
a second step: it runs one aggregation and stores the result. The check
and the body are separate steps because the body suspends at its awaits,
letting other callers interleave. -/
def stepCaller (now : Nat) (s : CacheState) : CallerPhase → CacheState × CallerPhase
  | .checking =>
      if s.cachedResult.isSome && now - s.lastScrapeTs < TEN_MIN
      then (s, .finished)
      else (s, .working)
  | .working =>
      ({ cachedResult := some (s.scrapeCount + 1), lastScrapeTs := now,
         scrapeCount := s.scrapeCount + 1 }, .finished)
  | .finished => (s, .finished)

/-- Run an interleaving: the schedule names at each step which caller
moves (out-of-range entries are skipped). -/
def runSchedule (now : Nat) : List Nat → CacheState × List CallerPhase →
    CacheState × List CallerPhase
  | [], st => st
  | i :: rest, (c, phases) =>
      match phases.get? i with
      | some p =>
          let next := stepCaller now c p
          runSchedule now rest (next.1, phases.set i next.2)
      | none => runSchedule now rest (c, phases)

/-- Helper: floor division of natural casts agrees with Nat division. -/
lemma fdiv_natCast (a b : Nat) : Int.fdiv (a : Int) (b : Int) = ((a / b : Nat) : Int) := by
  cases a with
  | zero => simp [Int.fdiv]
  | succ n => rfl

/-- Helper: the band property of the shared extractor pattern loop. -/
lemma priceLoop_band (caps : List (Option String)) :
    priceLoop caps = 0 ∨ (400 ≤ priceLoop caps ∧ priceLoop caps ≤ 3500) := by
  induction caps with
  | nil => exact Or.inl rfl
  | cons head rest ih =>
      cases head with
      | none => simpa [priceLoop] using ih
      | some cap =>
          simp only [priceLoop]
          cases hp : jsParseInt (String.mk (cap.toList.filter (fun c => c ≠ '.'))) with
          | none => simpa using ih
          | some priceNum =>
              by_cases hb : 400 ≤ priceNum ∧ priceNum ≤ 3500
              · simp only [if_pos hb]
                exact Or.inr hb
              · simpa [if_neg hb] using ih

/-- C5: for every input, extractGrunoPrice and extractVanDerMeulenPrice
return either 0 or an integer within the band 400..3500: a matched pattern
whose parsed value is out of band is treated as a non-match and the next
pattern is tried, so a non-zero out-of-band price is never returned. The
arguments quantify over every possible capture result of the source
patterns on any HTML string. -/
theorem extractors_never_out_of_band :
    (∀ c1 c2 c3 c4 c5 c6 c7,
        extractGrunoPrice c1 c2 c3 c4 c5 c6 c7 = 0 ∨
          (400 ≤ extractGrunoPrice c1 c2 c3 c4 c5 c6 c7 ∧
           extractGrunoPrice c1 c2 c3 c4 c5 c6 c7 ≤ 3500)) ∧
    (∀ v1 v2 v3 v4 v5 v6 v7 v8 v9 v10,
        extractVanDerMeulenPrice v1 v2 v3 v4 v5 v6 v7 v8 v9 v10 = 0 ∨
          (400 ≤ extractVanDerMeulenPrice v1 v2 v3 v4 v5 v6 v7 v8 v9 v10 ∧
           extractVanDerMeulenPrice v1 v2 v3 v4 v5 v6 v7 v8 v9 v10 ≤ 3500)) :=
  ⟨fun _ _ _ _ _ _ _ => priceLoop_band _,
   fun _ _ _ _ _ _ _ _ _ _ => priceLoop_band _⟩

/-- C6: parseDutchDate on "05-06-2025" with reference today 2025-06-10
yields listedDate "2025-06-05" and daysAgo 5 (computed as
max(0, today - listedDate) in whole days), and the long form
"Donderdag 5 juni 2025" parses to the same result; neither input consults
the random fallback draws, so the result holds for every draw. -/
theorem parseDutchDate_spec_scenarios :
    ∀ randMs randCatchDays : Nat,
      parseDutchDate randMs randCatchDays today20250610 "05-06-2025" =
        { listedDate := "2025-06-05", daysAgo := 5 } ∧
      parseDutchDate randMs randCatchDays today20250610 "Donderdag 5 juni 2025" =
        { listedDate := "2025-06-05", daysAgo := 5 } := by
  intro randMs randCatchDays
  exact ⟨rfl, rfl⟩

/-- C7 fails as stated: for an unparseable date string the fallback result
depends on the Math.random draw, so two runs on the same input with the
same reference today need not agree (draw 0 against a three-day draw). -/
theorem parseDutchDate_fallback_not_deterministic :
    parseDutchDate 0 0 today20250610 "onbekend" ≠
      parseDutchDate 259200000 0 today20250610 "onbekend" := by
  decide

/-- C7 (amended): for every unparseable date string parseDutchDate does
not fail and returns a bounded recent date - when the string lacks the
DD-MM-YYYY shape and no month name is found, today minus a random offset
of less than seven days (daysAgo = the offset in whole days, at most 6);
when it has the DD-MM-YYYY shape but a split field is non-numeric (the
NaN date whose toISOString throws), today minus a random whole-day count
of at most 13 days (daysAgo at most 13). In both cases daysAgo is at most
13, but the result is a function of the random draw as well, not of the
input and today alone. -/
theorem parseDutchDate_fallback_bounded (s : String) (randMs randCatchDays : Nat)
    (todayMs : Int)
    (hmonth : (s.toList.contains '-' && hasDDMMYYYY s.toList) = false →
      (jsSplit ' ' (toLowerStr s)).find? (fun p => (lookupMonth p).isSome) = none)
    (hnan : (s.toList.contains '-' && hasDDMMYYYY s.toList) = true →
      numericDateMs s = none)
    (hr : randMs < 604800000) (hc : randCatchDays < 14) :
    (parseDutchDate randMs randCatchDays todayMs s =
        { listedDate := isoDateOfMs (todayMs - (randMs : Int)),
          daysAgo := randMs / 86400000 } ∨
      parseDutchDate randMs randCatchDays todayMs s =
        { listedDate := isoDateOfMs (todayMs - (randCatchDays : Int) * msPerDay),
          daysAgo := randCatchDays }) ∧
    (parseDutchDate randMs randCatchDays todayMs s).daysAgo ≤ 13 := by
  by_cases hb : (s.toList.contains '-' && hasDDMMYYYY s.toList) = true
  · have hmain : parseDutchDate randMs randCatchDays todayMs s =
        { listedDate := isoDateOfMs (todayMs - (randCatchDays : Int) * msPerDay),
          daysAgo := randCatchDays } := by
      simp only [parseDutchDate, hb, hnan hb, eq_self_iff_true, if_true]
    rw [hmain]
    refine ⟨Or.inr rfl, ?_⟩
    show randCatchDays ≤ 13
    omega
  · have hb' : (s.toList.contains '-' && hasDDMMYYYY s.toList) = false := by
      simpa using hb
    have hmain : parseDutchDate randMs randCatchDays todayMs s =
        { listedDate := isoDateOfMs (todayMs - (randMs : Int)),
          daysAgo := randMs / 86400000 } := by
      simp only [parseDutchDate, hb', Bool.false_eq_true, if_false, hmonth hb']
      have harith : todayMs - (todayMs - (randMs : Int)) = (randMs : Int) := by omega
      rw [harith]
      have hfd : Int.fdiv (randMs : Int) msPerDay = ((randMs / 86400000 : Nat) : Int) :=
        fdiv_natCast randMs 86400000
      rw [hfd]
      have hneg : ¬(((randMs / 86400000 : Nat) : Int) < 0) := by omega
      rw [if_neg hneg]
      simp only [ParsedDate.mk.injEq, true_and]
      omega
    rw [hmain]
    refine ⟨Or.inl rfl, ?_⟩
    show randMs / 86400000 ≤ 13
    omega

/-- Witness for the amended C7 theorem at concrete unparseable inputs of
both kinds: a month-name miss ("onbekend") and a NaN numeric date whose
construction throws ("ab-12-12-2024"). -/
theorem parseDutchDate_fallback_bounded_witness :
    ((parseDutchDate 100 0 today20250610 "onbekend" =
        { listedDate := isoDateOfMs (today20250610 - (100 : Int)),
          daysAgo := 100 / 86400000 } ∨
      parseDutchDate 100 0 today20250610 "onbekend" =
        { listedDate := isoDateOfMs (today20250610 - (0 : Int) * msPerDay),
          daysAgo := 0 }) ∧
      (parseDutchDate 100 0 today20250610 "onbekend").daysAgo ≤ 13) ∧
    ((parseDutchDate 0 13 today20250610 "ab-12-12-2024" =
        { listedDate := isoDateOfMs (today20250610 - (0 : Int)),
          daysAgo := 0 / 86400000 } ∨
      parseDutchDate 0 13 today20250610 "ab-12-12-2024" =
        { listedDate := isoDateOfMs (today20250610 - (13 : Int) * msPerDay),
          daysAgo := 13 }) ∧
      (parseDutchDate 0 13 today20250610 "ab-12-12-2024").daysAgo ≤ 13) := by
  constructor
  · exact parseDutchDate_fallback_bounded "onbekend" 100 0 today20250610
      (fun _ => by decide) (fun h => absurd h (by decide)) (by decide) (by decide)
  · exact parseDutchDate_fallback_bounded "ab-12-12-2024" 0 13 today20250610
      (fun h => absurd h (by decide)) (fun _ => by decide) (by decide) (by decide)

/-- C2 fails as stated: in scrapeVanDerMeulen a total extraction failure
(index and detail extraction both 0) does not propagate price 0 but a
fabricated 600-plus-random value, which is nonzero and varies with the
draw. -/
theorem vanDerMeulen_price_fabricated :
    vanDerMeulenFinalPrice 0 0 83 = 683 ∧
    vanDerMeulenFinalPrice 0 0 83 ≠ 0 ∧
    vanDerMeulenFinalPrice 0 0 83 ≠ vanDerMeulenFinalPrice 0 0 99 := by
  decide

/-- C2 (amended): on total price-extraction failure, scrapeGrunoVerhuur,
scrapeRotsvast and scrapeNovaVastgoed emit price 0 and never a fabricated
value, but scrapeVanDerMeulen, scrapeDCWonen and scrape123Wonen substitute
a randomized fallback (600, 400 and 800 plus the floored draw), which is
never 0. -/
theorem adapter_price_fallbacks :
    grunoFinalPrice 0 0 = 0 ∧ rotsvastFinalPrice 0 = 0 ∧
    (∀ rand, vanDerMeulenFinalPrice 0 0 rand = 600 + rand ∧ 600 + rand ≠ 0) ∧
    (∀ rand, dcWonenFinalPrice 0 rand = 400 + rand ∧ 400 + rand ≠ 0) ∧
    (∀ rand, wonen123FinalPrice 0 rand = 800 + rand ∧ 800 + rand ≠ 0) := by
  refine ⟨rfl, rfl, fun rand => ⟨?_, by omega⟩, fun rand => ⟨rfl, by omega⟩,
    fun rand => ⟨rfl, by omega⟩⟩
  have h6 : 600 + rand ≠ 0 := by omega
  simp [vanDerMeulenFinalPrice, h6]

/-- Witness for the amended C2 theorem at a concrete draw. -/
theorem adapter_price_fallbacks_witness :
    vanDerMeulenFinalPrice 0 0 7 = 607 ∧ dcWonenFinalPrice 0 7 = 407 ∧
    wonen123FinalPrice 0 7 = 807 :=
  ⟨(adapter_price_fallbacks.2.2.1 7).1, (adapter_price_fallbacks.2.2.2.1 7).1,
   (adapter_price_fallbacks.2.2.2.2 7).1⟩

/-- C1 fails as stated: the id interpolates Date.now() and the loop index,
so the same listing (same source, same listing path, same index) scraped
in two cycles with different timestamps gets two different ids. -/
theorem gruno_id_unstable_across_cycles :
    (grunoRecord 1000 0 "Damsterdiep 47"
        "https://www.grunoverhuur.nl/woningaanbod/huur/groningen/damsterdiep/47"
        0 2 "50m²" "2025-06-05" 5 1 2).id ≠
    (grunoRecord 2000 0 "Damsterdiep 47"
        "https://www.grunoverhuur.nl/woningaanbod/huur/groningen/damsterdiep/47"
        0 2 "50m²" "2025-06-05" 5 1 2).id := by
  decide

/-- C1 (amended): the record id is a function of the scrape timestamp and
the loop index alone - it does not depend on the listing path or any other
listing data, so it is unique per cycle but not stable across cycles; and
change detection computes newRecords as exactly the current records whose
id occurs in no record of the previous snapshot, with no records reported
when no previous snapshot exists. -/
theorem id_cycle_local_and_change_detection :
    (∀ nowTs i a a' u u' bp bp' r r' s s' ld ld' da da' p1 p1' p2 p2',
        (grunoRecord nowTs i a u bp r s ld da p1 p2).id =
        (grunoRecord nowTs i a' u' bp' r' s' ld' da' p1' p2').id) ∧
    (∀ current previous p,
        p ∈ detectNewProperties true current previous ↔
          p ∈ current ∧ ∀ q ∈ previous, q.id ≠ p.id) ∧
    (∀ current previous, detectNewProperties false current previous = []) := by
  refine ⟨fun _ _ _ _ _ _ _ _ _ _ _ _ _ _ _ _ _ _ _ _ => rfl, ?_, fun _ _ => rfl⟩
  intro current previous p
  simp only [detectNewProperties, if_pos, List.mem_filter, Bool.not_eq_true',
    List.any_eq_false, beq_iff_eq, beq_eq_false_iff_ne, ne_eq]

/-- Witness for the amended C1 theorem: first-cycle change detection at a
concrete empty state. -/
theorem id_cycle_local_and_change_detection_witness :
    detectNewProperties false [] [] = [] :=
  id_cycle_local_and_change_detection.2.2 [] []

/-- C10: scrapeMVGM and scrapeExpatGroningen perform no fetch of listing
data: their output ignores every page environment (so it is independent of
the content of any external agency site) and always consists of exactly 12
and exactly 10 generated records respectively. -/
theorem mvgm_expat_generated_counts :
    ∀ (pages pages' : String → Option String) (draws : Nat → Nat) (nowTs : Nat),
      scrapeMVGM pages draws nowTs = scrapeMVGM pages' draws nowTs ∧
      scrapeExpatGroningen pages draws nowTs = scrapeExpatGroningen pages' draws nowTs ∧
      (scrapeMVGM pages draws nowTs).length = 12 ∧
      (scrapeExpatGroningen pages draws nowTs).length = 10 := by
  intro pages pages' draws nowTs
  refine ⟨rfl, rfl, ?_, ?_⟩ <;> simp [scrapeMVGM, scrapeExpatGroningen]

/-- Helper: the records contributed by one settled outcome. -/
def settledRecords : Settled (List ScrapedProperty) → List ScrapedProperty
  | .fulfilled v => v
  | .rejected _ => []

/-- Helper: the fold of the GET merge is the flattening of the fulfilled
records. -/
lemma mergeSettled_eq_flatten (outcomes : List (Settled (List ScrapedProperty))) :
    mergeSettled outcomes = (outcomes.map settledRecords).flatten := by
  suffices h : ∀ (l : List (Settled (List ScrapedProperty))) (acc : List ScrapedProperty),
      l.foldl (fun acc o => match o with
        | .fulfilled v => acc ++ v
        | .rejected _ => acc) acc = acc ++ (l.map settledRecords).flatten by
    simpa using h outcomes []
  intro l
  induction l with
  | nil => intro acc; simp
  | cons o t ih =>
      intro acc
      cases o with
      | fulfilled v => simp [ih, settledRecords]
      | rejected e => simp [ih, settledRecords]

/-- C8: the orchestrator joins the adapters with settle-all semantics: a
fulfilled adapter's records appear in the merged result whatever the other
outcomes are (so no failing adapter can suppress them), and when every
adapter fails the handler still builds a response with zero records
instead of raising. -/
theorem settle_all_fault_isolation :
    (∀ (outcomes : List (Settled (List ScrapedProperty))) (i : Nat) (records : List ScrapedProperty),
        outcomes.get? i = some (Settled.fulfilled records) →
        ∀ r ∈ records, r ∈ mergeSettled outcomes) ∧
    (∀ outcomes : List (Settled (List ScrapedProperty)),
        (∀ o ∈ outcomes, ∃ e, o = Settled.rejected e) →
        (buildResponse outcomes).properties = [] ∧ (buildResponse outcomes).count = 0) := by
  constructor
  · intro outcomes i records hget r hr
    rw [mergeSettled_eq_flatten]
    refine List.mem_flatten.mpr ⟨records, ?_, hr⟩
    have hmem : Settled.fulfilled records ∈ outcomes := List.get?_mem hget
    exact (List.mem_map_of_mem settledRecords hmem : settledRecords (Settled.fulfilled records) ∈ _)
  · intro outcomes hall
    have hmerge : mergeSettled outcomes = [] := by
      rw [mergeSettled_eq_flatten]
      rw [List.flatten_eq_nil_iff]
      intro l hl
      rcases List.mem_map.mp hl with ⟨o, ho, rfl⟩
      rcases hall o ho with ⟨e, rfl⟩
      rfl
    exact ⟨by simp [buildResponse, hmerge], by simp [buildResponse, hmerge]⟩

/-- A concrete record for the C8 witness. -/
def c8rec : ScrapedProperty :=
  ⟨"gruno-1-0", "Oosterstraat 5", 650, "Groningen", "50m²", 2, "", [], "", "Gruno Verhuur",
    "", "2025-06-05", 2⟩

/-- Witness for C8 at concrete outcome vectors: a record of a fulfilled
adapter survives a rejected sibling, and an all-rejected run yields the
empty response. -/
theorem settle_all_fault_isolation_witness :
    c8rec ∈ mergeSettled [Settled.rejected "network", Settled.fulfilled [c8rec]] ∧
    (buildResponse [Settled.rejected "a", Settled.rejected "b"]).properties = [] := by
  constructor
  · exact settle_all_fault_isolation.1
      [Settled.rejected "network", Settled.fulfilled [c8rec]] 1 [c8rec] rfl c8rec
      (List.mem_singleton.mpr rfl)
  · refine (settle_all_fault_isolation.2 [Settled.rejected "a", Settled.rejected "b"] ?_).1
    intro o ho
    simp only [List.mem_cons, List.mem_singleton, List.not_mem_nil, or_false] at ho
    rcases ho with rfl | rfl
    · exact ⟨"a", rfl⟩
    · exact ⟨"b", rfl⟩

/-- C9 fails as stated: two callers that both arrive at time TEN_MIN (the
cache written at time 0 has just expired) and interleave
check-check-scrape-scrape each trigger an aggregation: two runs, not
exactly one. -/
theorem cache_refresh_not_single_flight :
    (runSchedule TEN_MIN [0, 1, 0, 1]
        ({ cachedResult := some 0, lastScrapeTs := 0, scrapeCount := 0 },
         [CallerPhase.checking, CallerPhase.checking])).1.scrapeCount = 2 ∧
    (runSchedule TEN_MIN [0, 1, 0, 1]
        ({ cachedResult := some 0, lastScrapeTs := 0, scrapeCount := 0 },
         [CallerPhase.checking, CallerPhase.checking])).1.scrapeCount ≠ 1 := by
  decide

/-- C9 (amended): callers that find a cached result younger than TEN_MIN
reuse it and never touch the cache or start an aggregation, under any
schedule; but refresh is not single-flight: every caller that observes an
expired cache starts its own aggregation, so two concurrent post-expiry
callers can run two aggregations (the cache check and the store are not a
mutually exclusive unit). -/
theorem cache_ttl_hit_no_refresh (now : Nat) (c : CacheState) (phases : List CallerPhase)
    (sched : List Nat)
    (hsome : c.cachedResult.isSome = true)
    (hfresh : now - c.lastScrapeTs < TEN_MIN)
    (hph : ∀ p ∈ phases, p ≠ CallerPhase.working) :
    (runSchedule now sched (c, phases)).1 = c ∧
    (runSchedule TEN_MIN [0, 1, 0, 1]
        ({ cachedResult := some 0, lastScrapeTs := 0, scrapeCount := 0 },
         [CallerPhase.checking, CallerPhase.checking])).1.scrapeCount = 2 := by
  refine ⟨?_, by decide⟩
  induction sched generalizing phases with
  | nil => rfl
  | cons i rest ih =>
      simp only [runSchedule]
      cases hget : phases.get? i with
      | none => exact ih phases hph
      | some p =>
          have hp : p ≠ CallerPhase.working := hph p (List.get?_mem hget)
          have hset : ∀ q ∈ phases.set i CallerPhase.finished, q ≠ CallerPhase.working := by
            intro q hq
            rcases List.mem_or_eq_of_mem_set hq with h | rfl
            · exact hph q h
            · intro h; exact CallerPhase.noConfusion h
          cases p with
          | checking =>
              have hcond : (c.cachedResult.isSome &&
                  decide (now - c.lastScrapeTs < TEN_MIN)) = true := by
                simp [hsome, hfresh]
              simp only [stepCaller, hcond, if_true]
              exact ih _ hset
          | working => exact absurd rfl hp
          | finished =>
              simp only [stepCaller]
              exact ih _ hset

/-- Witness for the amended C9 theorem: one caller, fresh cache, the cache
is untouched. -/
theorem cache_ttl_hit_no_refresh_witness :
    (runSchedule 5 [0, 0] ({ cachedResult := some 1, lastScrapeTs := 0, scrapeCount := 1 },
        [CallerPhase.checking])).1 =
      { cachedResult := some 1, lastScrapeTs := 0, scrapeCount := 1 } := by
  refine (cache_ttl_hit_no_refresh 5
    { cachedResult := some 1, lastScrapeTs := 0, scrapeCount := 1 }
    [CallerPhase.checking] [0, 0] rfl (by decide) ?_).1
  intro p hp
  rw [List.mem_singleton] at hp
  subst hp
  decide

/-- A predicate on records is key-determined when records whose title and
location agree also agree on it. -/
def KeyDet (P : Property → Bool) : Prop :=
  ∀ a b, keyEq a b = true → P a = P b

/-- Helper: every record duplicates itself. -/
lemma keyEq_refl (a : Property) : keyEq a a = true := by simp [keyEq]

/-- Helper: records with equal keys compare equally against any record. -/
lemma keyEq_congr {a b : Property} (h : keyEq a b = true) (q : Property) :
    keyEq q a = keyEq q b := by
  simp only [keyEq, Bool.and_eq_true, beq_iff_eq] at h
  simp only [keyEq, h.1, h.2]

/-- Helper: findIndex over a cons for the duplicate test. -/
lemma firstKeyIdx_cons (q r : Property) (t : List Property) :
    firstKeyIdx (q :: t) r = bif keyEq q r then 0 else firstKeyIdx t r + 1 := by
  simp [firstKeyIdx, List.findIdx_cons]

/-- Generalization of the dedup filter for the proofs: the records of l,
enumerated from index k, that satisfy P and sit at the first index of
their (title, location) key in l. -/
def dedupFrom (k : Nat) (l : List Property) (P : Property → Bool) : List Property :=
  ((List.enumFrom k l).filter
    (fun ip => P ip.2 && (k + firstKeyIdx l ip.2 == ip.1))).map Prod.snd

/-- The source dedup is the generalized filter at offset 0 with the
trivial predicate. -/
lemma dedupTitleLoc_eq_dedupFrom (l : List Property) :
    dedupTitleLoc l = dedupFrom 0 l (fun _ => true) := by
  unfold dedupTitleLoc dedupFrom
  rw [List.enum_eq_enumFrom]
  congr 1
  apply List.filter_congr
  intro ip _
  simp

/-- Unfolding the generalized dedup filter over a cons whose head passes
the predicate: the head is kept (it is trivially first of its key) and the
tail continues with the head's key excluded. -/
lemma dedupFrom_cons_pos (k : Nat) (q : Property) (t : List Property) (P : Property → Bool)
    (hq : P q = true) :
    dedupFrom k (q :: t) P = q :: dedupFrom (k + 1) t (fun r => P r && !(keyEq q r)) := by
  simp only [dedupFrom]
  rw [List.enumFrom_cons, List.filter_cons]
  have hhead : (P q && (k + firstKeyIdx (q :: t) q == k)) = true := by
    rw [firstKeyIdx_cons]
    simp [keyEq_refl, hq]
  rw [if_pos hhead, List.map_cons]
  congr 2
  apply List.filter_congr
  intro ip hip
  obtain ⟨i, r⟩ := ip
  obtain ⟨hik, -, -⟩ := List.mem_enumFrom hip
  rw [firstKeyIdx_cons]
  cases hk : keyEq q r with
  | true =>
      have hfalse : (k + 0 == i) = false := by
        rw [beq_eq_false_iff_ne]
        omega
      simp only [hk, cond_true, hfalse, Bool.and_false, Bool.not_true, Bool.false_and]
  | false =>
      have harith : k + (firstKeyIdx t r + 1) = (k + 1) + firstKeyIdx t r := by omega
      simp only [hk, cond_false, harith, Bool.not_false, Bool.and_true]

/-- Unfolding over a cons whose head fails the predicate: the head is
dropped, and since the predicate is key-determined, every later record
with the head's key is dropped as well, so the head's presence in the
findIndex scan is immaterial. -/
lemma dedupFrom_cons_neg (k : Nat) (q : Property) (t : List Property) (P : Property → Bool)
    (hP : KeyDet P) (hq : P q = false) :
    dedupFrom k (q :: t) P = dedupFrom (k + 1) t P := by
  simp only [dedupFrom]
  rw [List.enumFrom_cons, List.filter_cons]
  have hhead : (P q && (k + firstKeyIdx (q :: t) q == k)) = false := by
    simp [hq]
  rw [if_neg (by simp [hhead])]
  congr 1
  apply List.filter_congr
  intro ip _
  obtain ⟨i, r⟩ := ip
  rw [firstKeyIdx_cons]
  cases hk : keyEq q r with
  | true =>
      have hr : P r = false := (hP q r hk) ▸ hq
      simp only [hr, Bool.false_and]
  | false =>
      have harith : k + (firstKeyIdx t r + 1) = (k + 1) + firstKeyIdx t r := by omega
      simp only [hk, cond_false, harith]

/-- Core lemma: dedup-with-predicate equals the plain dedup of the
filtered list, at any enumeration offsets. -/
lemma dedupFrom_filter : ∀ (n : Nat) (l : List Property) (P : Property → Bool) (k j : Nat),
    l.length ≤ n → KeyDet P →
    dedupFrom k l P = dedupFrom j (l.filter P) (fun _ => true) := by
  intro n
  induction n with
  | zero =>
      intro l P k j hlen _
      rw [List.length_eq_zero.mp (Nat.le_zero.mp hlen)]
      rfl
  | succ n ih =>
      intro l P k j hlen hP
      cases l with
      | nil => rfl
      | cons q t =>
          have hlt : t.length ≤ n := Nat.le_of_succ_le_succ hlen
          by_cases hq : P q = true
          · rw [dedupFrom_cons_pos k q t P hq]
            have hP' : KeyDet (fun r => P r && !(keyEq q r)) := by
              intro a b hab
              simp only [hP a b hab, keyEq_congr hab q]
            rw [ih t (fun r => P r && !(keyEq q r)) (k + 1) (j + 1) hlt hP']
            rw [show (q :: t).filter P = q :: t.filter P from by
              rw [List.filter_cons, if_pos hq]]
            rw [dedupFrom_cons_pos j q (t.filter P) (fun _ => true) rfl]
            congr 1
            have hK : KeyDet (fun r => true && !(keyEq q r)) := by
              intro a b hab
              simp only [keyEq_congr hab q]
            rw [ih (t.filter P) (fun r => true && !(keyEq q r)) (j + 1) (j + 1)
              (le_trans (List.length_filter_le _ _) hlt) hK]
            congr 1
            rw [List.filter_filter]
            apply List.filter_congr
            intro r _
            cases hPr : P r <;> cases hk : keyEq q r <;> simp [hPr, hk]
          · have hq' : P q = false := by simpa using hq
            rw [dedupFrom_cons_neg k q t P hP hq']
            rw [show (q :: t).filter P = t.filter P from by
              rw [List.filter_cons, if_neg (by simp [hq'])]]
            exact ih t P (k + 1) j hlt hP

/-- The defining cons equation of the source dedup: keep the head, dedup
the tail with every duplicate of the head removed. -/
lemma dedupTitleLoc_cons (q : Property) (t : List Property) :
    dedupTitleLoc (q :: t) = q :: dedupTitleLoc (t.filter (fun r => !(keyEq q r))) := by
  rw [dedupTitleLoc_eq_dedupFrom, dedupFrom_cons_pos 0 q t (fun _ => true) rfl,
    dedupTitleLoc_eq_dedupFrom]
  congr 1
  have hK : KeyDet (fun r => true && !(keyEq q r)) := by
    intro a b hab
    simp only [keyEq_congr hab q]
  rw [dedupFrom_filter t.length t (fun r => true && !(keyEq q r)) 1 0 le_rfl hK]
  exact congrArg (fun L => dedupFrom 0 L (fun _ => true))
    (List.filter_congr (fun r _ => by simp))

/-- specDedup on the empty list. -/
lemma specDedup_nil : specDedup [] = [] := by
  rw [specDedup]

/-- specDedup on a cons. -/
lemma specDedup_cons (p : Property) (rest : List Property) :
    specDedup (p :: rest) = p :: specDedup (rest.filter (fun q => !(keyEq p q))) := by
  rw [specDedup]

/-- The source dedup computes the specification dedup. -/
lemma dedup_spec_aux : ∀ (n : Nat) (l : List Property), l.length ≤ n →
    dedupTitleLoc l = specDedup l := by
  intro n
  induction n with
  | zero =>
      intro l hl
      rw [List.length_eq_zero.mp (Nat.le_zero.mp hl), specDedup_nil]
      rfl
  | succ n ih =>
      intro l hl
      cases l with
      | nil =>
          rw [specDedup_nil]
          rfl
      | cons q t =>
          rw [dedupTitleLoc_cons, specDedup_cons]
          congr 1
          exact ih _ (le_trans (List.length_filter_le _ _) (Nat.le_of_succ_le_succ hl))

/-- specDedup commutes with filtering by a key-determined predicate. -/
lemma specDedup_filter : ∀ (n : Nat) (l : List Property) (P : Property → Bool),
    l.length ≤ n → KeyDet P →
    specDedup (l.filter P) = (specDedup l).filter P := by
  intro n
  induction n with
  | zero =>
      intro l P hl _
      rw [List.length_eq_zero.mp (Nat.le_zero.mp hl)]
      rw [List.filter_nil, specDedup_nil, List.filter_nil]
  | succ n ih =>
      intro l P hl hP
      cases l with
      | nil => rw [List.filter_nil, specDedup_nil, List.filter_nil]
      | cons q t =>
          have hlt : t.length ≤ n := Nat.le_of_succ_le_succ hl
          by_cases hq : P q = true
          · rw [List.filter_cons, if_pos hq, specDedup_cons, specDedup_cons,
              List.filter_cons, if_pos hq]
            congr 1
            rw [← ih (t.filter (fun r => !(keyEq q r))) P
              (le_trans (List.length_filter_le _ _) hlt) hP]
            congr 1
            rw [List.filter_filter, List.filter_filter]
            apply List.filter_congr
            intro r _
            cases hPr : P r <;> cases hk : keyEq q r <;> simp [hPr, hk]
          · have hq' : P q = false := by simpa using hq
            rw [List.filter_cons, if_neg (by simp [hq']), specDedup_cons,
              List.filter_cons, if_neg (by simp [hq'])]
            rw [← ih (t.filter (fun r => !(keyEq q r))) P
              (le_trans (List.length_filter_le _ _) hlt) hP]
            congr 1
            rw [List.filter_filter]
            apply List.filter_congr
            intro r _
            cases hPr : P r with
            | false => simp [hPr]
            | true =>
                cases hk : keyEq q r with
                | true =>
                    exfalso
                    have := hP q r hk
                    rw [hq', hPr] at this
                    exact Bool.noConfusion this
                | false => simp [hPr, hk]

/-- specDedup is idempotent. -/
lemma specDedup_idem : ∀ (n : Nat) (l : List Property), l.length ≤ n →
    specDedup (specDedup l) = specDedup l := by
  intro n
  induction n with
  | zero =>
      intro l hl
      rw [List.length_eq_zero.mp (Nat.le_zero.mp hl), specDedup_nil, specDedup_nil]
  | succ n ih =>
      intro l hl
      cases l with
      | nil => rw [specDedup_nil, specDedup_nil]
      | cons q t =>
          have hlt : t.length ≤ n := Nat.le_of_succ_le_succ hl
          have hfl : (t.filter (fun r => !(keyEq q r))).length ≤ n :=
            le_trans (List.length_filter_le _ _) hlt
          have hK : KeyDet (fun r => !(keyEq q r)) := by
            intro a b hab
            simp only [keyEq_congr hab q]
          rw [specDedup_cons q t]
          rw [specDedup_cons q (specDedup (t.filter (fun r => !(keyEq q r))))]
          congr 1
          rw [← specDedup_filter n (t.filter (fun r => !(keyEq q r)))
            (fun r => !(keyEq q r)) hfl hK]
          rw [List.filter_filter]
          rw [show t.filter (fun a => !(keyEq q a) && !(keyEq q a))
              = t.filter (fun r => !(keyEq q r)) from
            List.filter_congr (fun r _ => by cases keyEq q r <;> simp)]
          exact ih _ hfl

/-- C3: the merge-step deduplication keeps, for every input list, exactly
the first occurrence (in adapter-iteration order) of each exact
case-sensitive (title, location) key - it equals the specification dedup
that drops precisely the later records whose title and location match an
earlier one - and it is idempotent. -/
theorem dedup_first_seen_and_idempotent :
    (∀ l, dedupTitleLoc l = specDedup l) ∧
    (∀ l, dedupTitleLoc (dedupTitleLoc l) = dedupTitleLoc l) := by
  have h1 : ∀ l, dedupTitleLoc l = specDedup l := fun l => dedup_spec_aux l.length l le_rfl
  refine ⟨h1, fun l => ?_⟩
  rw [h1 l, h1 (specDedup l)]
  exact specDedup_idem l.length l le_rfl

/-- Helper: inserting a record into a list preserves, for every listing
age k, the sublist of records with that age (the inserted record is placed
before every record it ties with, so equal-key records keep their relative
order). -/
lemma filter_orderedInsert (k : Nat) (x : Property) (l : List Property) :
    (List.orderedInsert byDays x l).filter (fun p => p.listedDays == k)
      = (x :: l).filter (fun p => p.listedDays == k) := by
  induction l with
  | nil => rfl
  | cons y ys ih =>
      rw [List.orderedInsert]
      by_cases h : byDays x y
      · rw [if_pos h]
      · rw [if_neg h]
        have hlt : y.listedDays < x.listedDays := Nat.lt_of_not_le h
        by_cases hy : (y.listedDays == k) = true
        · have hx : (x.listedDays == k) = false := by
            rw [beq_eq_false_iff_ne]
            rw [beq_iff_eq] at hy
            omega
          simp [List.filter_cons, hy, hx, ih]
        · have hy' : (y.listedDays == k) = false := by simpa using hy
          simp [List.filter_cons, hy', ih]

/-- Helper: the stable sort preserves, for every listing age k, the
sublist of records with that age. -/
lemma filter_sortByDays (k : Nat) (l : List Property) :
    (sortByDays l).filter (fun p => p.listedDays == k)
      = l.filter (fun p => p.listedDays == k) := by
  induction l with
  | nil => rfl
  | cons x xs ih =>
      simp only [sortByDays] at ih ⊢
      rw [List.insertionSort, filter_orderedInsert]
      simp only [List.filter_cons]
      by_cases hx : (x.listedDays == k) = true
      · rw [if_pos hx, if_pos hx, ih]
      · rw [if_neg hx, if_neg hx, ih]

/-- C4: the merged output of scrapeAllSources is sorted ascending by
days-since-listed - whenever record A precedes record B in the output,
A.listedDays <= B.listedDays - and the sort is stable: it is a permutation
of the deduplicated concatenation that preserves, for every listing age,
the relative order of the tied records (their sublist is unchanged). -/
theorem merged_output_sorted_and_stable :
    ∀ outcomes : List (Except String (List Property)),
      (scrapeAllSources outcomes).Pairwise byDays ∧
      (∀ k, (scrapeAllSources outcomes).filter (fun p => p.listedDays == k)
          = (dedupTitleLoc (collectSources outcomes)).filter (fun p => p.listedDays == k)) ∧
      (scrapeAllSources outcomes).Perm (dedupTitleLoc (collectSources outcomes)) := by
  intro outcomes
  refine ⟨?_, fun k => filter_sortByDays k _, List.perm_insertionSort byDays _⟩
  exact List.sorted_insertionSort byDays (dedupTitleLoc (collectSources outcomes))
